import Mathlib

/-!
Verification of the mopidy-mpd protocol engine against its specification.

The definitions below are a shallow embedding of the Python sources:

* `mopidy_mpd/uri_mapper.py` — the URI↔name mapper (`MpdUriMapper`);
* `mopidy_mpd/exceptions.py` — the MPD ACK error values;
* `mopidy_mpd/protocol/__init__.py` — command registry and `Handler.__call__`;
* `mopidy_mpd/dispatcher.py` — the filter chain (`MpdDispatcher`), the
  response formatter and `handle_idle`;
* `mopidy_mpd/network.py` — line framing (`LineProtocol`);
* `mopidy_mpd/session.py` — the malformed-command guard;
* `mopidy_mpd/protocol/filter_expressions.py` — the filter-expression parser.

Python dicts are modelled as insertion-ordered association lists, Python
sets as duplicate-free lists, and machine integers as `Nat`/`Int` (no
overflow is possible in the modelled code).  Stateful methods are modelled
as explicit state-passing functions, and raised `MpdAckError`s as `Except`
errors.
-/

/-! ## Decimal rendering of naturals

Python renders numbers with `f"{i:d}"` (used by `get_mpd_ack` and by the
URI mapper's collision suffix ` [k]`).  `natDecimal` is the standard
base-10 rendering; `decValue` is its parsing inverse, used to prove
injectivity (needed to show the collision loop terminates before its fuel
runs out). -/

def digitChar10 (d : Nat) : Char := Char.ofNat (48 + d)

def digitVal (c : Char) : Nat := c.toNat - 48

def natDecimalGo : Nat → Nat → List Char
  | 0, n => [digitChar10 n]
  | fuel + 1, n =>
    if n < 10 then [digitChar10 n]
    else natDecimalGo fuel (n / 10) ++ [digitChar10 (n % 10)]

def natDecimalAux (n : Nat) : List Char := natDecimalGo n n

def natDecimal (n : Nat) : String := String.mk (natDecimalAux n)

def decValue (l : List Char) : Nat := l.foldl (fun a c => a * 10 + digitVal c) 0

theorem decValue_append_digit (l : List Char) (c : Char) :
    decValue (l ++ [c]) = decValue l * 10 + digitVal c := by
  simp only [decValue, List.foldl_append, List.foldl_cons, List.foldl_nil]

theorem digitVal_digitChar10 (d : Nat) (h : d < 10) : digitVal (digitChar10 d) = d := by
  interval_cases d <;> decide

theorem decValue_natDecimalGo (fuel n : Nat) (h : n ≤ fuel + 9) :
    decValue (natDecimalGo fuel n) = n := by
  induction fuel generalizing n with
  | zero =>
    simp only [natDecimalGo, decValue, List.foldl_cons, List.foldl_nil,
      Nat.zero_mul, Nat.zero_add]
    exact digitVal_digitChar10 n (by omega)
  | succ f ih =>
    rw [natDecimalGo]
    split
    · next hlt =>
      simp only [decValue, List.foldl_cons, List.foldl_nil, Nat.zero_mul, Nat.zero_add]
      exact digitVal_digitChar10 n hlt
    · next hge =>
      rw [decValue_append_digit, ih (n / 10) (by omega),
        digitVal_digitChar10 (n % 10) (Nat.mod_lt _ (by omega))]
      omega

theorem decValue_natDecimalAux (n : Nat) : decValue (natDecimalAux n) = n :=
  decValue_natDecimalGo n n (by omega)

theorem natDecimalAux_injective (m n : Nat) (h : natDecimalAux m = natDecimalAux n) :
    m = n := by
  have hm := decValue_natDecimalAux m
  have hn := decValue_natDecimalAux n
  rw [h] at hm
  omega

theorem natDecimalAux_ne_nil (n : Nat) : natDecimalAux n ≠ [] := by
  unfold natDecimalAux
  cases n with
  | zero => simp [natDecimalGo]
  | succ k =>
    rw [natDecimalGo]
    split <;> simp

/-! ## Association lists

Python `dict`s are modelled as insertion-ordered association lists:
`assocLookup` is `d.get(k)` / `k in d`, `assocSet` is `d[k] = v` (replace
in place when the key exists, append otherwise). -/

def assocLookup {α β : Type} [DecidableEq α] (m : List (α × β)) (k : α) : Option β :=
  (m.find? (fun p => p.1 = k)).map (fun p => p.2)

def assocSet {α β : Type} [DecidableEq α] : List (α × β) → α → β → List (α × β)
  | [], k, v => [(k, v)]
  | (k', v') :: rest, k, v =>
    if k' = k then (k, v) :: rest else (k', v') :: assocSet rest k v

theorem assocLookup_assocSet_self {α β : Type} [DecidableEq α]
    (m : List (α × β)) (k : α) (v : β) : assocLookup (assocSet m k v) k = some v := by
  induction m with
  | nil => simp [assocSet, assocLookup, List.find?]
  | cons p rest ih =>
    obtain ⟨k', v'⟩ := p
    by_cases h : k' = k
    · simp [assocSet, h, assocLookup, List.find?]
    · simp only [assocSet, if_neg h]
      simp only [assocLookup, List.find?] at ih ⊢
      simp [h, ih]

theorem assocLookup_assocSet_ne {α β : Type} [DecidableEq α]
    (m : List (α × β)) (k k' : α) (v : β) (h : k' ≠ k) :
    assocLookup (assocSet m k v) k' = assocLookup m k' := by
  induction m with
  | nil =>
    have : decide (k = k') = false := by
      simp only [decide_eq_false_iff_not]
      exact fun hh => h hh.symm
    simp [assocSet, assocLookup, List.find?, this]
  | cons p rest ih =>
    obtain ⟨k₀, v₀⟩ := p
    by_cases hk : k₀ = k
    · subst hk
      simp only [assocSet, if_pos rfl]
      simp only [assocLookup, List.find?]
      have hne : ¬(k₀ = k') := fun hh => h (hh.symm)
      have hne' : decide (k₀ = k') = false := by simp [hne]
      simp [hne']
    · simp only [assocSet, if_neg hk]
      simp only [assocLookup, List.find?] at ih ⊢
      by_cases he : k₀ = k'
      · simp [he]
      · have : decide (k₀ = k') = false := by simp [he]
        simp [this, ih]

theorem assocLookup_isSome_mem_keys {α β : Type} [DecidableEq α]
    (m : List (α × β)) (k : α) (h : (assocLookup m k).isSome) :
    k ∈ m.map Prod.fst := by
  induction m with
  | nil => simp [assocLookup] at h
  | cons p rest ih =>
    obtain ⟨k₀, v₀⟩ := p
    by_cases he : k₀ = k
    · simp [he]
    · simp only [assocLookup, List.find?] at h
      have : decide (k₀ = k) = false := by simp [he]
      rw [this] at h
      simp only [List.map_cons, List.mem_cons]
      exact Or.inr (ih h)

/-! ## URI mapper (`mopidy_mpd/uri_mapper.py`)

`Uri` is `Uri | None` in the source, so it is modelled as `Option String`.
`sanitizeBrowse` is `_invalid_browse_chars.sub(" ", name)`: every `\n` or
`\r` is replaced by a single space. -/

abbrev Uri := Option String

structure MpdUriMapper where
  uri_from_name : List (String × Uri)
  browse_name_from_uri : List (Uri × String)
  playlist_name_from_uri : List (Uri × String)

def sanitizeBrowse (name : String) : String :=
  String.mk (name.data.map (fun c => if c = '\n' ∨ c = '\r' then ' ' else c))

/-- Candidate name tried by the collision loop at counter `i`:
`f"{stripped_name} [{i:d}]"`. -/
def candName (stripped : String) (i : Nat) : String :=
  stripped ++ " [" ++ natDecimal i ++ "]"

/-- Body of the `while name in self._uri_from_name` loop of
`MpdUriMapper._create_unique_name`.  The loop always terminates because the
candidate names are pairwise distinct and the dict is finite; the fuel
`m.length + 1` is proved sufficient below (`createUniqueNameGo_spec`). -/
def createUniqueNameGo (m : List (String × Uri)) (uri : Uri) (stripped : String) :
    Nat → String → Nat → String
  | 0, name, _ => name
  | fuel + 1, name, i =>
    match assocLookup m name with
    | none => name
    | some u =>
      if u = uri then name
      else createUniqueNameGo m uri stripped fuel (candName stripped i) (i + 1)

def createUniqueName (m : List (String × Uri)) (name : String) (uri : Uri) : String :=
  let stripped := sanitizeBrowse name
  createUniqueNameGo m uri stripped (m.length + 1) stripped 2

def MpdUriMapper.insert (mm : MpdUriMapper) (name : String) (uri : Uri)
    (playlist : Bool) : String × MpdUriMapper :=
  let n := createUniqueName mm.uri_from_name name uri
  (n,
    { mm with
      uri_from_name := assocSet mm.uri_from_name n uri,
      playlist_name_from_uri :=
        if playlist then assocSet mm.playlist_name_from_uri uri n
        else mm.playlist_name_from_uri,
      browse_name_from_uri :=
        if playlist then mm.browse_name_from_uri
        else assocSet mm.browse_name_from_uri uri n })

/-- `MpdUriMapper.uri_from_name(name)`: `self._uri_from_name.get(name)`. -/
def MpdUriMapper.uriFromName (mm : MpdUriMapper) (name : String) : Uri :=
  match assocLookup mm.uri_from_name name with
  | some u => u
  | none => none

theorem String.data_mk (l : List Char) : (String.mk l).data = l := rfl

theorem candName_injective (s : String) (i j : Nat)
    (h : candName s i = candName s j) : i = j := by
  have hd := congrArg String.data h
  simp only [candName, natDecimal, String.data_append, String.data_mk,
    List.append_assoc] at hd
  have hd' := List.append_cancel_left hd
  have hd'' := List.append_cancel_left hd'
  exact natDecimalAux_injective i j (List.append_cancel_right hd'')

theorem candName_ne (s : String) (i : Nat) : candName s i ≠ s := by
  intro h
  have hd := congrArg (fun t => t.data.length) h
  simp only [candName, natDecimal, String.data_append, String.data_mk,
    List.length_append] at hd
  have := natDecimalAux_ne_nil i
  have hpos : 0 < (natDecimalAux i).length := List.length_pos.mpr this
  omega

theorem createUniqueNameGo_form (m : List (String × Uri)) (uri : Uri) (stripped : String) :
    ∀ (fuel i : Nat) (name : String), 2 ≤ i →
      (∃ k, 2 ≤ k ∧ name = candName stripped k) →
      ∃ k, 2 ≤ k ∧ createUniqueNameGo m uri stripped fuel name i = candName stripped k := by
  intro fuel
  induction fuel with
  | zero =>
    intro i name _ hf
    simpa [createUniqueNameGo] using hf
  | succ f ih =>
    intro i name h2 hf
    cases hl : assocLookup m name with
    | none => simpa [createUniqueNameGo, hl] using hf
    | some u =>
      by_cases hu : u = uri
      · simpa [createUniqueNameGo, hl, hu] using hf
      · simp only [createUniqueNameGo, hl, if_neg hu]
        exact ih (i + 1) (candName stripped i) (by omega) ⟨i, by omega, rfl⟩

theorem createUniqueNameGo_spec (m : List (String × Uri)) (uri : Uri) (stripped : String) :
    ∀ (fuel i : Nat) (name : String) (tried : List String),
      tried.Nodup →
      (∀ k ∈ tried, (assocLookup m k).isSome) →
      m.length + 1 ≤ fuel + tried.length →
      ((i = 2 ∧ name = stripped ∧ tried = []) ∨
       (3 ≤ i ∧ name = candName stripped (i - 1) ∧
        ∀ k ∈ tried, k = stripped ∨ ∃ j, 2 ≤ j ∧ j + 2 ≤ i ∧ k = candName stripped j)) →
      assocLookup m (createUniqueNameGo m uri stripped fuel name i) = none ∨
      assocLookup m (createUniqueNameGo m uri stripped fuel name i) = some uri := by
  intro fuel
  induction fuel with
  | zero =>
    intro i name tried hnodup hmem harith _
    exfalso
    have hsub : tried ⊆ m.map Prod.fst := fun k hk =>
      assocLookup_isSome_mem_keys m k (hmem k hk)
    have hle := (hnodup.subperm hsub).length_le
    rw [List.length_map] at hle
    omega
  | succ f ih =>
    intro i name tried hnodup hmem harith hinv
    cases hl : assocLookup m name with
    | none =>
      left
      simp [createUniqueNameGo, hl]
    | some u =>
      by_cases hu : u = uri
      · right
        simp [createUniqueNameGo, hl, hu]
      · simp only [createUniqueNameGo, hl, if_neg hu]
        have hnotmem : name ∉ tried := by
          rcases hinv with ⟨_, _, htried⟩ | ⟨hi3, hname, htried⟩
          · simp [htried]
          · intro hmem'
            rcases htried name hmem' with hst | ⟨j, hj2, hji, hjeq⟩
            · rw [hname] at hst
              exact candName_ne stripped (i - 1) hst
            · rw [hname] at hjeq
              have := candName_injective stripped j (i - 1) hjeq.symm
              omega
        refine ih (i + 1) (candName stripped i) (name :: tried)
          (List.nodup_cons.mpr ⟨hnotmem, hnodup⟩)
          (fun k hk => ?_) (by simp; omega) ?_
        · rcases List.mem_cons.mp hk with hk | hk
          · rw [hk, hl]; rfl
          · exact hmem k hk
        · right
          have h2 : 2 ≤ i := by
            rcases hinv with ⟨h2, _, _⟩ | ⟨h3, _, _⟩ <;> omega
          refine ⟨by omega, by simp, fun k hk => ?_⟩
          rcases List.mem_cons.mp hk with hk | hk
          · rcases hinv with ⟨hi2, hname, _⟩ | ⟨hi3, hname, _⟩
            · left; rw [hk, hname]
            · right
              exact ⟨i - 1, by omega, by omega, by rw [hk, hname]⟩
          · rcases hinv with ⟨_, _, htried⟩ | ⟨_, _, htried⟩
            · simp [htried] at hk
            · rcases htried k hk with hst | ⟨j, hj2, hji, hjeq⟩
              · exact Or.inl hst
              · exact Or.inr ⟨j, hj2, by omega, hjeq⟩

theorem createUniqueName_spec (m : List (String × Uri)) (name : String) (uri : Uri) :
    assocLookup m (createUniqueName m name uri) = none ∨
    assocLookup m (createUniqueName m name uri) = some uri := by
  exact createUniqueNameGo_spec m uri (sanitizeBrowse name) (m.length + 1) 2
    (sanitizeBrowse name) [] List.nodup_nil (by simp) (by simp)
    (Or.inl ⟨rfl, rfl, rfl⟩)

/-- Names containing no newline or carriage-return are fixed by the
browse-name sanitizer. -/
theorem sanitizeBrowse_id (N : String) (h : ∀ c ∈ N.data, c ≠ '\n' ∧ c ≠ '\r') :
    sanitizeBrowse N = N := by
  have : N.data.map (fun c => if c = '\n' ∨ c = '\r' then ' ' else c) = N.data := by
    rw [show N.data = N.data.map id by simp]
    rw [List.map_map]
    refine List.map_congr_left (fun c hc => ?_)
    rcases h c (by simpa using hc) with ⟨h1, h2⟩
    simp [h1, h2]
  unfold sanitizeBrowse
  rw [this]

/-- C10: the URI map's name-to-URI binding is write-once.  If `N` is bound
to `u`, any later `insert` (with any arguments) leaves `N` bound to `u`,
because `_create_unique_name` only returns a name that is unused or already
bound to the URI being inserted. -/
theorem uriMap_write_once (mm : MpdUriMapper) (N : String) (u : Uri)
    (name : String) (uri : Uri) (playlist : Bool)
    (h : assocLookup mm.uri_from_name N = some u) :
    assocLookup ((mm.insert name uri playlist).2).uri_from_name N = some u ∧
    (assocLookup mm.uri_from_name (createUniqueName mm.uri_from_name name uri) = none ∨
     assocLookup mm.uri_from_name (createUniqueName mm.uri_from_name name uri) = some uri) := by
  refine ⟨?_, createUniqueName_spec mm.uri_from_name name uri⟩
  show assocLookup (assocSet mm.uri_from_name
    (createUniqueName mm.uri_from_name name uri) uri) N = some u
  rcases createUniqueName_spec mm.uri_from_name name uri with hr | hr
  · have hne : N ≠ createUniqueName mm.uri_from_name name uri := by
      intro he
      rw [← he, h] at hr
      exact Option.noConfusion hr
    rw [assocLookup_assocSet_ne _ _ _ _ hne, h]
  · by_cases he : N = createUniqueName mm.uri_from_name name uri
    · rw [← he] at hr ⊢
      rw [h] at hr
      rw [assocLookup_assocSet_self]
      exact (Option.some.injEq _ _ ▸ hr : u = uri) ▸ rfl
    · rw [assocLookup_assocSet_ne _ _ _ _ he, h]

def uriMapWitnessState : MpdUriMapper :=
  { uri_from_name := [("a", some "u1")],
    browse_name_from_uri := [(some "u1", "a")],
    playlist_name_from_uri := [] }

theorem uriMap_write_once_witness :
    assocLookup ((uriMapWitnessState.insert "a" (some "u2") false).2).uri_from_name "a"
      = some (some "u1") ∧
    (assocLookup uriMapWitnessState.uri_from_name
        (createUniqueName uriMapWitnessState.uri_from_name "a" (some "u2")) = none ∨
     assocLookup uriMapWitnessState.uri_from_name
        (createUniqueName uriMapWitnessState.uri_from_name "a" (some "u2"))
          = some (some "u2")) :=
  uriMap_write_once uriMapWitnessState "a" (some "u1") "a" (some "u2") false (by decide)

/-- C5 counterexample: the claim says that inserting the same name `N` with
the same URI twice returns `N` both times, but for `N = "a\nb"` both calls
return the sanitized name `"a b"` (newlines are replaced by spaces), which
is not `N`. -/
theorem uriMap_roundtrip_counterexample :
    ((MpdUriMapper.mk [] [] []).insert "a\nb" (some "u") false).1 = "a b" ∧
    (((MpdUriMapper.mk [] [] []).insert "a\nb" (some "u") false).2.insert
        "a\nb" (some "u") false).1 = "a b" ∧
    "a b" ≠ "a\nb" := by
  refine ⟨by decide, by decide, by decide⟩

/-- C5 (amended): for names without `\n`/`\r` (which the sanitizer would
replace by spaces) the URI map satisfies the round-trip and collision
policy: the name returned by `insert` looks up to the inserted URI;
inserting the same name with the same URI twice returns the name both
times; re-inserting a bound name with a different URI returns a fresh
suffixed name `N [k]`, `k ≥ 2`, and leaves the original binding intact. -/
theorem uriMap_roundtrip :
    (∀ (mm : MpdUriMapper) (N : String) (U : Uri) (playlist : Bool),
      ((mm.insert N U playlist).2).uriFromName (mm.insert N U playlist).1 = U) ∧
    (∀ (mm : MpdUriMapper) (N : String) (U : Uri),
      (∀ c ∈ N.data, c ≠ '\n' ∧ c ≠ '\r') →
      (assocLookup mm.uri_from_name N = none ∨ assocLookup mm.uri_from_name N = some U) →
      (mm.insert N U false).1 = N ∧ (((mm.insert N U false).2).insert N U false).1 = N) ∧
    (∀ (mm : MpdUriMapper) (N : String) (U U' : Uri),
      (∀ c ∈ N.data, c ≠ '\n' ∧ c ≠ '\r') →
      assocLookup mm.uri_from_name N = some U →
      U' ≠ U →
      (∃ k, 2 ≤ k ∧ (mm.insert N U' false).1 = candName N k) ∧
      (mm.insert N U' false).1 ≠ N ∧
      ((mm.insert N U' false).2).uriFromName N = U) := by
  refine ⟨?_, ?_, ?_⟩
  · intro mm N U playlist
    show MpdUriMapper.uriFromName _ (createUniqueName mm.uri_from_name N U) = U
    unfold MpdUriMapper.uriFromName
    simp only [MpdUriMapper.insert]
    rw [assocLookup_assocSet_self]
  · intro mm N U hN hstate
    have hsan : sanitizeBrowse N = N := sanitizeBrowse_id N hN
    have hfirst : (mm.insert N U false).1 = N := by
      show createUniqueName mm.uri_from_name N U = N
      unfold createUniqueName
      rw [hsan]
      rcases hstate with hnone | hsome
      · simp [createUniqueNameGo, hnone]
      · simp [createUniqueNameGo, hsome]
    refine ⟨hfirst, ?_⟩
    show createUniqueName ((mm.insert N U false).2).uri_from_name N U = N
    have hm1 : ((mm.insert N U false).2).uri_from_name
        = assocSet mm.uri_from_name (createUniqueName mm.uri_from_name N U) U := rfl
    rw [hm1]
    have : createUniqueName mm.uri_from_name N U = N := hfirst
    rw [this]
    unfold createUniqueName
    rw [hsan]
    have hlook : assocLookup (assocSet mm.uri_from_name N U) N = some U :=
      assocLookup_assocSet_self _ _ _
    simp [createUniqueNameGo, hlook]
  · intro mm N U U' hN hsome hne
    have hsan : sanitizeBrowse N = N := sanitizeBrowse_id N hN
    have hform : ∃ k, 2 ≤ k ∧ (mm.insert N U' false).1 = candName N k := by
      show ∃ k, 2 ≤ k ∧ createUniqueName mm.uri_from_name N U' = candName N k
      unfold createUniqueName
      rw [hsan]
      have hfuel : mm.uri_from_name.length + 1 = mm.uri_from_name.length + 1 := rfl
      have hstep : createUniqueNameGo mm.uri_from_name U' N (mm.uri_from_name.length + 1) N 2
          = createUniqueNameGo mm.uri_from_name U' N mm.uri_from_name.length (candName N 2) 3 := by
        have hUne : U ≠ U' := fun h => hne h.symm
        simp [createUniqueNameGo, hsome, hUne]
      rw [hstep]
      exact createUniqueNameGo_form mm.uri_from_name U' N mm.uri_from_name.length 3
        (candName N 2) (by omega) ⟨2, by omega, rfl⟩
    rcases hform with ⟨k, hk2, hkeq⟩
    have hrne : (mm.insert N U' false).1 ≠ N := by
      rw [hkeq]
      exact candName_ne N k
    refine ⟨⟨k, hk2, hkeq⟩, hrne, ?_⟩
    unfold MpdUriMapper.uriFromName
    have : ((mm.insert N U' false).2).uri_from_name
        = assocSet mm.uri_from_name (createUniqueName mm.uri_from_name N U') U' := rfl
    rw [this]
    have hcand : createUniqueName mm.uri_from_name N U' = (mm.insert N U' false).1 := rfl
    rw [hcand, assocLookup_assocSet_ne _ _ _ _ (fun h => hrne h.symm), hsome]

theorem uriMap_roundtrip_witness :
    (((MpdUriMapper.mk [("x", some "u1")] [] []).insert "x" (some "u2") false).1
        = candName "x" 2) ∧
    (((MpdUriMapper.mk [("x", some "u1")] [] []).insert "x" (some "u2") false).2).uriFromName "x"
        = some "u1" := by
  have h := uriMap_roundtrip.2.2 (MpdUriMapper.mk [("x", some "u1")] [] [])
    "x" (some "u1") (some "u2") (by decide) (by decide) (by decide)
  obtain ⟨⟨k, hk2, hkeq⟩, hne, hlook⟩ := h
  refine ⟨?_, hlook⟩
  have : ((MpdUriMapper.mk [("x", some "u1")] [] []).insert "x" (some "u2") false).1
      = candName "x" 2 := by decide
  exact this

/-! ## MPD ACK errors (`mopidy_mpd/exceptions.py`)

An `MpdAckError` carries an error code (fixed per subclass), a free-form
message, a command-list index (default 0) and an optional command name.
`getMpdAck` renders `f"ACK [{error_code:d}@{index:d}] {{{command}}} {message}"`;
a `None` command renders as the Python string `"None"`. -/

structure MpdError where
  error_code : Nat
  message : String
  index : Nat
  command : Option String
deriving DecidableEq

def mpdArgError (message : String) : MpdError :=
  { error_code := 2, message := message, index := 0, command := none }

def mpdPermissionError (command : String) : MpdError :=
  { error_code := 4,
    message := "you don\x27t have permission for \x22" ++ command ++ "\x22",
    index := 0, command := some command }

def mpdUnknownCommandError (command : String) : MpdError :=
  { error_code := 5, message := "unknown command \x22" ++ command ++ "\x22",
    index := 0, command := some "" }

def mpdNoCommandError : MpdError :=
  { error_code := 5, message := "No command given", index := 0, command := some "" }

def mpdDisabledError (command : String) : MpdError :=
  { error_code := 0,
    message := "\x22" ++ command ++ "\x22 has been disabled in the server",
    index := 0, command := some command }

def getMpdAck (e : MpdError) : String :=
  "ACK [" ++ natDecimal e.error_code ++ "@" ++ natDecimal e.index ++ "] \x7b" ++
    (match e.command with
     | some c => c
     | none => "None") ++ "\x7d " ++ e.message

/-! ## Handler results and the response formatter (`dispatcher.py`)

`protocol.Result` is `None | ResultDict | ResultTuple | ResultList` with
string results also accepted by `_format_lines`; result values are strings
or ints.  A result is modelled as `Option RNode`. -/

inductive RVal where
  | s : String → RVal
  | i : Int → RVal
deriving DecidableEq

def RVal.toLine : RVal → String
  | .s v => v
  | .i n => if n < 0 then "-" ++ natDecimal n.natAbs else natDecimal n.natAbs

inductive RNode where
  | tup : String → RVal → RNode
  | dict : List (String × RVal) → RNode
  | str : String → RNode
  | list : List RNode → RNode

mutual

/-- One element step of `MpdDispatcher._flatten`: a nested list is
flattened recursively, anything else is kept. -/
def flattenNode : RNode → List RNode
  | .list xs => flattenList xs
  | .tup k v => [.tup k v]
  | .dict entries => [.dict entries]
  | .str s => [.str s]

/-- `MpdDispatcher._flatten`. -/
def flattenList : List RNode → List RNode
  | [] => []
  | e :: rest => flattenNode e ++ flattenList rest

end

/-- `MpdDispatcher._format_lines`.  The `.list` case is unreachable: the
formatter only applies it after `_flatten`, whose output contains no lists
(the Python `else` branch would pass the raw list object through). -/
def formatLines : RNode → List String
  | .dict entries => entries.map (fun kv => kv.1 ++ ": " ++ kv.2.toLine)
  | .tup k v => [k ++ ": " ++ v.toLine]
  | .str s => [s]
  | .list _ => []

/-- `MpdDispatcher._listify_result`. -/
def listifyResult : Option RNode → List RNode
  | none => []
  | some (.list xs) => flattenList xs
  | some e => [e]

/-- `MpdDispatcher._format_response`. -/
def formatResponse (result : Option RNode) : List String :=
  (listifyResult result).foldl (fun response element => response ++ formatLines element) []

theorem flattenList_no_list_aux :
    ∀ (n : Nat) (l : List RNode), sizeOf l = n →
      ∀ x ∈ flattenList l, ∀ ys, x ≠ RNode.list ys := by
  intro n
  induction n using Nat.strong_induction_on with
  | _ n ih =>
    intro l hl
    cases l with
    | nil => simp [flattenList]
    | cons e rest =>
      intro x hx ys
      rw [flattenList] at hx
      rcases List.mem_append.mp hx with h1 | h2
      · cases e with
        | list xs =>
          rw [flattenNode] at h1
          refine ih (sizeOf xs) ?_ xs rfl x h1 ys
          subst hl
          simp only [List.cons.sizeOf_spec, RNode.list.sizeOf_spec]
          omega
        | tup k v =>
          rw [flattenNode] at h1
          simp only [List.mem_singleton] at h1
          subst h1
          simp
        | dict entries =>
          rw [flattenNode] at h1
          simp only [List.mem_singleton] at h1
          subst h1
          simp
        | str s =>
          rw [flattenNode] at h1
          simp only [List.mem_singleton] at h1
          subst h1
          simp
      · refine ih (sizeOf rest) ?_ rest rfl x h2 ys
        subst hl
        simp only [List.cons.sizeOf_spec]
        have : 0 < sizeOf e := by cases e <;> simp
        omega

/-- The output of `_flatten` contains no nested lists. -/
theorem flattenList_no_list (l : List RNode) :
    ∀ x ∈ flattenList l, ∀ ys, x ≠ RNode.list ys :=
  flattenList_no_list_aux (sizeOf l) l rfl

/-- `_flatten` is the identity on already-flat lists. -/
theorem flattenList_fixed (l : List RNode) (h : ∀ x ∈ l, ∀ ys, x ≠ RNode.list ys) :
    flattenList l = l := by
  induction l with
  | nil => rfl
  | cons e rest ih =>
    rw [flattenList]
    have he : flattenNode e = [e] := by
      cases e with
      | list xs => exact absurd rfl (h (RNode.list xs) (by simp) xs)
      | tup k v => rfl
      | dict entries => rfl
      | str s => rfl
    rw [he]
    simp only [List.cons_append, List.nil_append]
    rw [ih (fun x hx => h x (List.mem_cons_of_mem e hx))]

theorem flattenList_idem (l : List RNode) : flattenList (flattenList l) = flattenList l :=
  flattenList_fixed (flattenList l) (flattenList_no_list l)

/-- C6: the response formatter is a homomorphism over list nesting —
`format(flatten(x)) = format(x)` for every nested result list — and maps
`None` to no lines, a `(key, value)` tuple to the single line
`key: value`, an ordered mapping to one `key: value` line per entry in
insertion order, and a plain string to itself as one line. -/
theorem formatter_homomorphism :
    (∀ x : List RNode,
       formatResponse (some (.list (flattenList x))) = formatResponse (some (.list x))) ∧
    formatResponse none = [] ∧
    (∀ (k : String) (v : RVal), formatResponse (some (.tup k v)) = [k ++ ": " ++ v.toLine]) ∧
    (∀ entries, formatResponse (some (.dict entries)) =
       entries.map (fun kv => kv.1 ++ ": " ++ kv.2.toLine)) ∧
    (∀ s, formatResponse (some (.str s)) = [s]) := by
  refine ⟨fun x => ?_, rfl, fun k v => ?_, fun entries => ?_, fun s => ?_⟩
  · have h1 : listifyResult (some (.list (flattenList x))) = flattenList (flattenList x) := rfl
    have h2 : listifyResult (some (.list x)) = flattenList x := rfl
    unfold formatResponse
    rw [h1, h2, flattenList_idem]
  · rfl
  · show ([] : List String) ++ entries.map (fun kv => kv.1 ++ ": " ++ kv.2.toLine) = _
    exact List.nil_append _
  · rfl

/-! ## Line framing (`mopidy_mpd/network.py`, `LineProtocol`)

Egress (`send_lines` / `join_lines`): every control character (codepoint
0–31, the keys of `CONTROL_CHARS`) is removed from each line, the lines are
joined with the terminator `"\n"` and a final terminator is appended; an
empty list sends nothing.  Ingress (`parse_lines`): while the buffer
contains the terminator `"\n"`, split once on the regex `\r?\n` and yield
the line before the match. -/

def stripCtl (line : String) : String :=
  String.mk (line.data.filter (fun c => 32 ≤ c.toNat))

def nlIntercalate : List String → String
  | [] => ""
  | [a] => a
  | a :: rest => a ++ "\n" ++ nlIntercalate rest

def joinLines (lines : List String) : String :=
  if lines.isEmpty then "" else nlIntercalate lines ++ "\n"

def sendLinesData (lines : List String) : Option String :=
  if lines.isEmpty then none
  else some (joinLines (lines.map stripCtl))

/-- Split the buffer at the first `\n`, like one `re.split` on `\r?\n`
except that the optional preceding `\r` is handled by `delimSplit`. -/
def splitAtNL : List Char → Option (List Char × List Char)
  | [] => none
  | c :: rest =>
    if c = '\n' then some ([], rest)
    else
      match splitAtNL rest with
      | none => none
      | some (l, r) => some (c :: l, r)

/-- One split on the regex `\r?\n`: the line is everything before the first
`\n`, minus an immediately preceding `\r`. -/
def delimSplit (buf : List Char) : Option (List Char × List Char) :=
  match splitAtNL buf with
  | none => none
  | some (l, r) => some (if l.getLast? = some '\r' then l.dropLast else l, r)

theorem splitAtNL_rest_lt (buf l r : List Char) (h : splitAtNL buf = some (l, r)) :
    r.length < buf.length := by
  induction buf generalizing l r with
  | nil => simp [splitAtNL] at h
  | cons c rest ih =>
    rw [splitAtNL] at h
    by_cases hc : c = '\n'
    · rw [if_pos hc] at h
      injection h with h'
      injection h' with h1 h2
      subst h2
      simp
    · rw [if_neg hc] at h
      cases hs : splitAtNL rest with
      | none => rw [hs] at h; exact Option.noConfusion h
      | some p =>
        obtain ⟨l', r'⟩ := p
        rw [hs] at h
        injection h with h'
        injection h' with h1 h2
        subst h2
        have := ih l' r' hs
        simp only [List.length_cons]
        omega

theorem delimSplit_rest_lt (buf l r : List Char) (h : delimSplit buf = some (l, r)) :
    r.length < buf.length := by
  unfold delimSplit at h
  cases hs : splitAtNL buf with
  | none => rw [hs] at h; exact Option.noConfusion h
  | some p =>
    obtain ⟨l', r'⟩ := p
    rw [hs] at h
    have hr : r = r' := by
      injection h with h'
      injection h' with h1 h2
      exact h2.symm
    rw [hr]
    exact splitAtNL_rest_lt buf l' r' hs

/-- The `while re.search(terminator, recv_buffer)` loop of `parse_lines`.
Each iteration consumes at least the matched `\n`, so `buf.length` fuel is
always sufficient (`delimSplit_rest_lt`). -/
def parseLinesGo : Nat → List Char → List (List Char) × List Char
  | 0, buf => ([], buf)
  | fuel + 1, buf =>
    match delimSplit buf with
    | none => ([], buf)
    | some (l, r) =>
      let p := parseLinesGo fuel r
      (l :: p.1, p.2)

def parseLines (buf : List Char) : List (List Char) × List Char :=
  parseLinesGo buf.length buf

def frameIn (s : String) : List String × String :=
  ((parseLines s.data).1.map String.mk, String.mk (parseLines s.data).2)

theorem stripCtl_id (p : String) (h : ∀ c ∈ p.data, 32 ≤ c.toNat) : stripCtl p = p := by
  unfold stripCtl
  have : p.data.filter (fun c => 32 ≤ c.toNat) = p.data :=
    List.filter_eq_self.mpr (fun a ha => by simpa using h a ha)
  rw [this]

theorem splitAtNL_of_no_nl (l r : List Char) (h : '\n' ∉ l) :
    splitAtNL (l ++ '\n' :: r) = some (l, r) := by
  induction l with
  | nil => simp [splitAtNL]
  | cons c rest ih =>
    have hc : c ≠ '\n' := fun hc => h (hc ▸ List.mem_cons_self c rest)
    have hr : '\n' ∉ rest := fun hm => h (List.mem_cons_of_mem c hm)
    rw [List.cons_append, splitAtNL, if_neg hc, ih hr]

theorem parseLinesGo_nil (fuel : Nat) : parseLinesGo fuel [] = ([], []) := by
  cases fuel <;> simp [parseLinesGo, delimSplit, splitAtNL]

/-- C7 counterexample: the payload `"a\tb"` contains no line terminator,
yet the egress framing removes the tab (a control character), so the
round trip yields `["ab"]`, not `["a\tb"]`. -/
theorem framing_roundtrip_counterexample :
    sendLinesData ["a\tb"] = some "ab\n" ∧
    frameIn "ab\n" = (["ab"], "") ∧
    '\n' ∉ "a\tb".data ∧
    (["ab"] : List String) ≠ ["a\tb"] := by
  refine ⟨by decide, by decide, by decide, by decide⟩

/-- C7 (amended): for payloads free of control characters (U+0000–U+001F)
the egress framing followed by ingress framing yields exactly the payload
with an empty remainder, and no control character survives the egress
per-line stripping. -/
theorem framing_roundtrip :
    (∀ p : String, (∀ c ∈ p.data, 32 ≤ c.toNat) →
       ∀ out, sendLinesData [p] = some out → frameIn out = ([p], "")) ∧
    (∀ (line : String) (c : Char), c ∈ (stripCtl line).data → 32 ≤ c.toNat) := by
  constructor
  · intro p h out hout
    have hstrip : stripCtl p = p := stripCtl_id p h
    have hsend : sendLinesData [p] = some (stripCtl p ++ "\n") := rfl
    have hout' : out = p ++ "\n" := by
      rw [hsend] at hout
      injection hout with h2
      rw [← h2, hstrip]
    subst hout'
    have hdata : (p ++ "\n").data = p.data ++ '\n' :: [] := by
      rw [String.data_append]
    have hnonl : '\n' ∉ p.data := by
      intro hm
      exact absurd (h '\n' hm) (by decide)
    have hsplit : delimSplit (p.data ++ '\n' :: []) = some (p.data, []) := by
      unfold delimSplit
      rw [splitAtNL_of_no_nl p.data [] hnonl]
      have hlast : p.data.getLast? ≠ some '\r' := by
        cases hp : p.data.getLast? with
        | none => simp
        | some c =>
          intro hc
          injection hc with hc
          subst hc
          have hmem : '\r' ∈ p.data := by
            obtain ⟨hne, heq⟩ :=
              List.mem_getLast?_eq_getLast (Option.mem_def.mpr hp)
            exact heq ▸ List.getLast_mem hne
          exact absurd (h '\r' hmem) (by decide)
      simp [hlast]
    unfold frameIn parseLines
    rw [hdata]
    have hlen : (p.data ++ '\n' :: []).length = p.data.length + 1 := by simp
    rw [hlen]
    rw [show parseLinesGo (p.data.length + 1) (p.data ++ '\n' :: [])
        = (p.data :: (parseLinesGo p.data.length []).1, (parseLinesGo p.data.length []).2) by
      simp [parseLinesGo, hsplit]]
    rw [parseLinesGo_nil]
    rfl
  · intro line c hc
    unfold stripCtl at hc
    rw [String.data_mk] at hc
    have := List.of_mem_filter hc
    simpa using this

theorem framing_roundtrip_witness :
    frameIn "hello\n" = (["hello"], "") ∧ 32 ≤ ('h' : Char).toNat := by
  constructor
  · exact framing_roundtrip.1 "hello" (by decide) "hello\n" (by decide)
  · exact framing_roundtrip.2 "xhy" 'h' (by decide)

/-! ## Tokenizer

Modelled from the spec: the repository's `mopidy_mpd/tokenize.py` is not
under `src/` (only its caller `dispatcher._call_handler` is), so
`tokenizeSplit` follows spec §4.C: whitespace separates tokens; a token
starting with `"` is a quoted token terminated by the next unescaped `"`,
with `\"` and `\\` denoting `"` and `\`; an unterminated quoted token or a
trailing unescaped backslash fails with error kind `Arg`. -/

def tokWs (c : Char) : Bool := c == ' ' || c == '\t'

def dquoteChar : Char := Char.ofNat 34

def tokQuotedGo : Nat → List Char → Except MpdError (List Char × List Char)
  | 0, _ => .error (mpdArgError "invalid quoted token")
  | _ + 1, [] => .error (mpdArgError "invalid quoted token")
  | fuel + 1, c :: rest =>
    if c == dquoteChar then .ok ([], rest)
    else if c == '\\' then
      match rest with
      | [] => .error (mpdArgError "invalid quoted token")
      | e :: rest2 =>
        match tokQuotedGo fuel rest2 with
        | .error err => .error err
        | .ok (acc, r) => .ok (e :: acc, r)
    else
      match tokQuotedGo fuel rest with
      | .error err => .error err
      | .ok (acc, r) => .ok (c :: acc, r)

def tokenizeGo : Nat → List Char → Except MpdError (List (List Char))
  | 0, _ => .error (mpdArgError "invalid request")
  | fuel + 1, s =>
    let s := s.dropWhile tokWs
    match s with
    | [] => .ok []
    | c :: rest =>
      if c == dquoteChar then
        match tokQuotedGo (rest.length + 1) rest with
        | .error err => .error err
        | .ok (tok, r) =>
          match tokenizeGo fuel r with
          | .error err => .error err
          | .ok toks => .ok (tok :: toks)
      else
        let tok := (c :: rest).takeWhile (fun ch => !(tokWs ch))
        let r := (c :: rest).dropWhile (fun ch => !(tokWs ch))
        match tokenizeGo fuel r with
        | .error err => .error err
        | .ok toks => .ok (tok :: toks)

def tokenizeSplit (request : String) : Except MpdError (List String) :=
  match tokenizeGo (request.data.length + 1) request.data with
  | .error err => .error err
  | .ok toks => .ok (toks.map String.mk)

/-! ## Dispatcher (`mopidy_mpd/dispatcher.py`)

State touched by command handlers (the `MpdContext` event/subscription
sets, the session's `prevent_timeout` flag, and the dispatcher's
`authenticated` flag; the remaining dispatcher fields are only touched by
the filters themselves and by the command-list machinery, which is not
under `src/`).  Python sets are modelled as duplicate-free lists. -/

structure SessionCtx where
  authenticated : Bool
  subscriptions : List String
  events : List String
  prevent_timeout : Bool
deriving DecidableEq

/-- A registered command (`protocol.Commands` / `protocol.Handler`).
`nRequired`/`nOptional` are the counts of required and optional positional
parameters after the leading `context` parameter; `validate` abstracts the
per-argument converters (`False` models a converter `ValueError`); `func`
abstracts the handler body, which may touch the `SessionCtx` and raise
MPD errors. -/
structure Handler where
  name : String
  auth_required : Bool
  list_command : Bool
  varargs : Bool
  nRequired : Nat
  nOptional : Nat
  validate : List String → Bool
  func : List String → SessionCtx → Except MpdError (Option RNode) × SessionCtx

structure DispatchEnv where
  password : Option String
  command_blacklist : List String
  handlers : List Handler

structure DState where
  ctx : SessionCtx
  command_list_receiving : Bool
  command_list_ok : Bool
  command_list : List String
  command_list_index : Option Nat
  sessionClosed : Bool
deriving DecidableEq

def findHandler (hs : List Handler) (name : String) : Option Handler :=
  hs.find? (fun h => h.name == name)

/-- `Handler.__call__` for a non-varargs handler: `inspect.bind` fails —
raising `MpdArgError(f'wrong number of arguments for "{name}"')` without
invoking the handler body — iff the token count is outside
`[nRequired, nRequired + nOptional]`; then the converters run
(`MpdArgError("incorrect arguments")` on failure) and the body is called. -/
def handlerCall (h : Handler) (tokens : List String) (ctx : SessionCtx) :
    Except MpdError (Option RNode) × SessionCtx :=
  if h.varargs then h.func tokens ctx
  else if tokens.length < h.nRequired || h.nRequired + h.nOptional < tokens.length then
    (.error (mpdArgError ("wrong number of arguments for \x22" ++ h.name ++ "\x22")), ctx)
  else if !h.validate tokens then (.error (mpdArgError "incorrect arguments"), ctx)
  else h.func tokens ctx

/-- `Commands.call`. -/
def commandsCall (hs : List Handler) (tokens : List String) (ctx : SessionCtx) :
    Except MpdError (Option RNode) × SessionCtx :=
  match tokens with
  | [] => (.error mpdNoCommandError, ctx)
  | command :: rest =>
    match findHandler hs command with
    | none => (.error (mpdUnknownCommandError command), ctx)
    | some h => handlerCall h rest ctx

/-- `MpdDispatcher._call_handler` wrapped by `_call_handler_filter` (the
innermost filter): tokenize, check the blacklist, call the handler, fill in
`exc.command` from the first token when unset, and format the result. -/
def callHandlerFilter (env : DispatchEnv) (st : DState) (request : String) :
    Except MpdError (List String) × DState :=
  match tokenizeSplit request with
  | .error e => (.error e, st)
  | .ok tokens =>
    if !tokens.isEmpty && env.command_blacklist.contains (tokens.headD "") then
      (.error (mpdDisabledError (tokens.headD "")), st)
    else
      match commandsCall env.handlers tokens st.ctx with
      | (.error e, ctx') =>
        (.error (if e.command = none then { e with command := some (tokens.headD "") } else e),
         { st with ctx := ctx' })
      | (.ok result, ctx') => (.ok (formatResponse result), { st with ctx := ctx' })

/-- `line.startswith("ACK")`. -/
def ackPrefixed (s : String) : Bool :=
  match s.data with
  | 'A' :: 'C' :: 'K' :: _ => true
  | _ => false

def hasError (response : List String) : Bool :=
  !response.isEmpty && ackPrefixed (response.getLastD "")

/-- `MpdDispatcher._add_ok_filter`. -/
def addOkFilter (env : DispatchEnv) (st : DState) (request : String) :
    Except MpdError (List String) × DState :=
  match callHandlerFilter env st request with
  | (.error e, st') => (.error e, st')
  | (.ok response, st') =>
    if hasError response then (.ok response, st')
    else (.ok (response ++ ["OK"]), st')

def isCurrentlyIdle (st : DState) : Bool := !st.ctx.subscriptions.isEmpty

/-- `MpdDispatcher._idle_filter`.  `session.close()` is modelled by setting
`sessionClosed`. -/
def idleFilter (env : DispatchEnv) (st : DState) (request : String) :
    Except MpdError (List String) × DState :=
  if isCurrentlyIdle st && !(request == "noidle") then
    (.ok [], { st with sessionClosed := true })
  else if !isCurrentlyIdle st && request == "noidle" then
    (.ok [], st)
  else
    match addOkFilter env st request with
    | (.error e, st') => (.error e, st')
    | (.ok response, st') =>
      if isCurrentlyIdle st' then (.ok [], st') else (.ok response, st')

def isReceivingCommandList (st : DState) (request : String) : Bool :=
  st.command_list_receiving && !(request == "command_list_end")

def isProcessingCommandList (st : DState) (request : String) : Bool :=
  st.command_list_index.isSome && !(request == "command_list_end")

/-- `MpdDispatcher._command_list_filter`. -/
def commandListFilter (env : DispatchEnv) (st : DState) (request : String) :
    Except MpdError (List String) × DState :=
  if isReceivingCommandList st request then
    (.ok [], { st with command_list := st.command_list ++ [request] })
  else
    match idleFilter env st request with
    | (.error e, st') => (.error e, st')
    | (.ok response, st') =>
      if (isReceivingCommandList st' request || isProcessingCommandList st' request)
          && !response.isEmpty && response.getLastD "" == "OK" then
        (.ok response.dropLast, st')
      else (.ok response, st')

/-- `request.split(" ")[0]`. -/
def firstWord (request : String) : String :=
  String.mk (request.data.takeWhile (fun c => !(c == ' ')))

/-- `MpdDispatcher._authenticate_filter`. -/
def authenticateFilter (env : DispatchEnv) (st : DState) (request : String) :
    Except MpdError (List String) × DState :=
  if st.ctx.authenticated then commandListFilter env st request
  else
    match env.password with
    | none =>
      commandListFilter env { st with ctx := { st.ctx with authenticated := true } } request
    | some _ =>
      let command_name := firstWord request
      match findHandler env.handlers command_name with
      | some command =>
        if !command.auth_required then commandListFilter env st request
        else (.error (mpdPermissionError command_name), st)
      | none => (.error (mpdPermissionError command_name), st)

/-- `MpdDispatcher.handle_request`: sets `command_list_index`, runs the
filter chain, and (`_catch_mpd_ack_errors_filter`, the outermost filter)
turns a raised `MpdAckError` into the single ACK line, restamping its index
from the current `command_list_index` when one is set. -/
def handleRequest (env : DispatchEnv) (st : DState) (idx : Option Nat) (request : String) :
    List String × DState :=
  let st0 := { st with command_list_index := idx }
  match authenticateFilter env st0 request with
  | (.ok response, st') => (response, st')
  | (.error e, st') =>
    let e' := match st'.command_list_index with
      | some i => { e with index := i }
      | none => e
    ([getMpdAck e'], st')

/-- Python `set.add`. -/
def setAdd (l : List String) (x : String) : List String :=
  if l.contains x then l else l ++ [x]

/-- `MpdDispatcher.handle_idle`: record the event; if some subscribed
subsystem now has a pending event, send the `changed:` lines plus `OK` and
clear both sets; otherwise only accumulate. -/
def handleIdle (ctx : SessionCtx) (subsystem : String) :
    SessionCtx × Option (List String) :=
  let events' := setAdd ctx.events subsystem
  let subsystems := ctx.subscriptions.filter (fun s => events'.contains s)
  if subsystems.isEmpty then ({ ctx with events := events' }, none)
  else
    ({ ctx with subscriptions := [], events := [] },
     some (subsystems.map (fun s => "changed: " ++ s) ++ ["OK"]))

/-- C4 counterexample: delivering a mapped `player` event to a session that
is idle on `player` emits `changed: player` plus `OK`, yet leaves
`prevent_timeout` set — `handle_idle` never clears it, so the claim's
"re-armed by clearing prevent_idle_timeout" conjunct is false. -/
theorem handle_idle_counterexample :
    (handleIdle ⟨true, ["player"], [], true⟩ "player").2
        = some ["changed: player", "OK"] ∧
    (handleIdle ⟨true, ["player"], [], true⟩ "player").1.prevent_timeout = true := by
  exact ⟨by decide, by decide⟩

/-- C4 (amended): when a mapped core event makes
`pending_events ∩ idle_subscriptions` non-empty, `handle_idle` sends one
`changed: S` line per intersecting subsystem followed by `OK` and clears
both sets atomically (both are empty at the moment of emission); when the
intersection is empty nothing is sent and the event only accumulates.  In
both cases `prevent_timeout` is left unchanged (the code never re-arms the
idle timeout here, contrary to the original claim). -/
theorem handle_idle_delivery (ctx : SessionCtx) (s : String) :
    (((ctx.subscriptions.filter
          (fun x => (setAdd ctx.events s).contains x)).isEmpty = true →
        handleIdle ctx s = ({ ctx with events := setAdd ctx.events s }, none)) ∧
     ((ctx.subscriptions.filter
          (fun x => (setAdd ctx.events s).contains x)).isEmpty = false →
        handleIdle ctx s =
          ({ ctx with subscriptions := [], events := [] },
           some ((ctx.subscriptions.filter
              (fun x => (setAdd ctx.events s).contains x)).map
                (fun x => "changed: " ++ x) ++ ["OK"]))) ∧
     (handleIdle ctx s).1.prevent_timeout = ctx.prevent_timeout) := by
  refine ⟨fun he => ?_, fun he => ?_, ?_⟩
  · simp only [handleIdle]
    rw [he]
    simp
  · simp only [handleIdle]
    rw [he]
    simp
  · simp only [handleIdle]
    by_cases he : (ctx.subscriptions.filter
        (fun x => (setAdd ctx.events s).contains x)).isEmpty = true
    · rw [if_pos he]
    · rw [if_neg he]

theorem handle_idle_delivery_witness :
    handleIdle ⟨true, ["player", "mixer"], ["mixer"], true⟩ "player"
      = (⟨true, [], [], true⟩, some ["changed: player", "changed: mixer", "OK"]) ∧
    handleIdle ⟨true, ["mixer"], [], false⟩ "player"
      = (⟨true, ["mixer"], ["player"], false⟩, none) := by
  constructor
  · exact (handle_idle_delivery ⟨true, ["player", "mixer"], ["mixer"], true⟩ "player").2.1
      (by decide)
  · exact (handle_idle_delivery ⟨true, ["mixer"], [], false⟩ "player").1 (by decide)

/-! ## Session guard (`mopidy_mpd/session.py`, `MpdSession.on_line_received`)

The source checks `len(line) == 0 or not (line[0].islower() and
line[0].isalpha())` and drops the connection with reason
`"Malformed command"` when the check fires; otherwise the line is handed to
`dispatcher.handle_request` and any non-empty response is sent.

`pyIsLower`/`pyIsAlpha` model Python's Unicode `str.islower`/`str.isalpha`
exactly on the Latin-1 range (codepoints < 256: `a`–`z` plus `ª µ º ß à`–`ö
ø`–`ÿ` are lowercase; letters of both cases plus the same extras are
alphabetic) and return `False` above it, so theorems about them restrict
the first character to Latin-1. -/

def pyIsLower (c : Char) : Bool :=
  (97 ≤ c.toNat && c.toNat ≤ 122) || c.toNat == 170 || c.toNat == 181 ||
    c.toNat == 186 || (223 ≤ c.toNat && c.toNat ≤ 246) ||
    (248 ≤ c.toNat && c.toNat ≤ 255)

def pyIsAlpha (c : Char) : Bool :=
  (65 ≤ c.toNat && c.toNat ≤ 90) || (97 ≤ c.toNat && c.toNat ≤ 122) ||
    c.toNat == 170 || c.toNat == 181 || c.toNat == 186 ||
    (192 ≤ c.toNat && c.toNat ≤ 214) || (216 ≤ c.toNat && c.toNat ≤ 246) ||
    (248 ≤ c.toNat && c.toNat ≤ 255)

structure LineOutcome where
  closed : Bool
  closeReason : Option String
  sent : List String
  state : DState
deriving DecidableEq

/-- `MpdSession.on_line_received`. -/
def onLineReceived (env : DispatchEnv) (st : DState) (line : String) : LineOutcome :=
  if line.data.isEmpty
      || !(match line.data.head? with
           | some c => pyIsLower c && pyIsAlpha c
           | none => false) then
    { closed := true, closeReason := some "Malformed command", sent := [], state := st }
  else
    let r := handleRequest env st none line
    { closed := r.2.sessionClosed, closeReason := none, sent := r.1, state := r.2 }

def emptyEnv : DispatchEnv := ⟨none, [], []⟩

def initialSessionCtx : SessionCtx := ⟨false, [], [], false⟩

def initialDState : DState := ⟨initialSessionCtx, false, false, [], none, false⟩

/-- C8 counterexample: the line `"éx"` does not start with a lowercase
ASCII letter (U+00E9 is outside `a`–`z`), yet Python's Unicode
`islower()`/`isalpha()` both accept `é`, so the line is dispatched (an
unknown-command ACK is produced) and the connection is not dropped. -/
theorem malformed_guard_counterexample :
    ¬(97 ≤ ('é' : Char).toNat ∧ ('é' : Char).toNat ≤ 122) ∧
    (onLineReceived emptyEnv initialDState "éx").closed = false ∧
    (onLineReceived emptyEnv initialDState "éx").closeReason = none ∧
    (onLineReceived emptyEnv initialDState "éx").sent
      = ["ACK [5@0] \x7b\x7d unknown command \x22éx\x22"] := by
  refine ⟨by decide, by decide, by decide, by decide⟩

/-- C8 (amended): every received line whose first character is not a
lowercase alphabetic character under Python's Unicode predicates — for
ASCII input, exactly the lowercase ASCII letters — including the empty
line, is never dispatched and drops the connection with reason
`Malformed command`.  The first character is restricted to Latin-1, where
`pyIsLower`/`pyIsAlpha` model Python exactly. -/
theorem malformed_guard (env : DispatchEnv) (st : DState) (line : String)
    (_hdom : ∀ c, line.data.head? = some c → c.toNat < 256)
    (h : line.data = [] ∨
      ∃ c, line.data.head? = some c ∧ ¬(pyIsLower c && pyIsAlpha c)) :
    onLineReceived env st line =
      { closed := true, closeReason := some "Malformed command",
        sent := [], state := st } := by
  unfold onLineReceived
  cases hd : line.data with
  | nil => simp [hd]
  | cons c rest =>
    rcases h with h | ⟨c', hc', hp⟩
    · rw [hd] at h
      exact absurd h (List.cons_ne_nil c rest)
    · rw [hd] at hc'
      simp only [List.head?_cons, Option.some.injEq] at hc'
      cases hc'
      have hfalse : (pyIsLower c && pyIsAlpha c) = false := by
        cases hb : pyIsLower c && pyIsAlpha c
        · rfl
        · exact absurd hb hp
      simp [hd, hfalse]

theorem malformed_guard_witness :
    onLineReceived emptyEnv initialDState "Abc" =
      { closed := true, closeReason := some "Malformed command",
        sent := [], state := initialDState } := by
  refine malformed_guard emptyEnv initialDState "Abc" ?_ ?_
  · intro c hc
    have h1 : "Abc".data.head? = some 'A' := rfl
    rw [h1] at hc
    injection hc with hc
    subst hc
    decide
  · exact Or.inr ⟨'A', rfl, by decide⟩

theorem idleFilter_closes (env : DispatchEnv) (st : DState) (request : String)
    (hidle : st.ctx.subscriptions ≠ []) (hreq : request ≠ "noidle") :
    idleFilter env st request = (.ok [], { st with sessionClosed := true }) := by
  unfold idleFilter isCurrentlyIdle
  have h1 : st.ctx.subscriptions.isEmpty = false := by
    cases hs : st.ctx.subscriptions with
    | nil => exact absurd hs hidle
    | cons a l => rfl
  have h2 : (request == "noidle") = false := by
    cases hb : request == "noidle"
    · rfl
    · exact absurd (beq_iff_eq.mp hb) hreq
  rw [h1, h2]
  simp

theorem idleFilter_noidle_not_idle (env : DispatchEnv) (st : DState)
    (hidle : st.ctx.subscriptions = []) :
    idleFilter env st "noidle" = (.ok [], st) := by
  unfold idleFilter isCurrentlyIdle
  rw [hidle]
  simp

theorem commandListFilter_idle_closes (env : DispatchEnv) (st : DState) (request : String)
    (hrec : st.command_list_receiving = false)
    (hidle : st.ctx.subscriptions ≠ []) (hreq : request ≠ "noidle") :
    commandListFilter env st request = (.ok [], { st with sessionClosed := true }) := by
  unfold commandListFilter
  have hrecv : isReceivingCommandList st request = false := by
    unfold isReceivingCommandList
    rw [hrec]
    rfl
  rw [hrecv, idleFilter_closes env st request hidle hreq]
  simp

theorem commandListFilter_noidle_not_idle (env : DispatchEnv) (st : DState)
    (hrec : st.command_list_receiving = false)
    (hidle : st.ctx.subscriptions = []) :
    commandListFilter env st "noidle" = (.ok [], st) := by
  unfold commandListFilter
  have hrecv : isReceivingCommandList st "noidle" = false := by
    unfold isReceivingCommandList
    rw [hrec]
    rfl
  rw [hrecv, idleFilter_noidle_not_idle env st hidle]
  simp

/-- C3: while a session is currently idle (`subscriptions` non-empty), any
request other than `noidle` closes the session with an empty (non-ACK)
response; and a `noidle` request received while not idle produces an empty
response (no `OK` line and no error).  The session is assumed
authenticated (or the server has no password) and not collecting a command
list — the only states in which a session can be idle. -/
theorem authenticateFilter_pass (env : DispatchEnv) (st : DState) (request : String)
    (hauth : st.ctx.authenticated = true ∨ env.password = none) :
    ∃ st1 : DState,
      authenticateFilter env st request = commandListFilter env st1 request ∧
      st1.ctx.subscriptions = st.ctx.subscriptions ∧
      st1.command_list_receiving = st.command_list_receiving ∧
      st1.command_list_index = st.command_list_index ∧
      st1.command_list = st.command_list ∧
      st1.sessionClosed = st.sessionClosed ∧
      st1.ctx.events = st.ctx.events ∧
      st1.ctx.prevent_timeout = st.ctx.prevent_timeout := by
  unfold authenticateFilter
  cases hb : st.ctx.authenticated with
  | true =>
    exact ⟨st, by simp, rfl, rfl, rfl, rfl, rfl, rfl, rfl⟩
  | false =>
    have hpw : env.password = none := by
      rcases hauth with ha | hpw
      · rw [hb] at ha
        exact absurd ha Bool.false_ne_true
      · exact hpw
    refine ⟨{ st with ctx := { st.ctx with authenticated := true } }, ?_,
      rfl, rfl, rfl, rfl, rfl, rfl, rfl⟩
    rw [if_neg Bool.false_ne_true, hpw]

theorem idle_gate_noidle :
    (∀ (env : DispatchEnv) (st : DState) (request : String),
      (st.ctx.authenticated = true ∨ env.password = none) →
      st.command_list_receiving = false →
      st.ctx.subscriptions ≠ [] →
      request ≠ "noidle" →
      (handleRequest env st none request).1 = [] ∧
      (handleRequest env st none request).2.sessionClosed = true) ∧
    (∀ (env : DispatchEnv) (st : DState),
      (st.ctx.authenticated = true ∨ env.password = none) →
      st.command_list_receiving = false →
      st.ctx.subscriptions = [] →
      (handleRequest env st none "noidle").1 = []) := by
  constructor
  · intro env st request hauth hrec hidle hreq
    simp only [handleRequest]
    obtain ⟨st1, heq, hsubs, hrecv, hidx, hlist, hclosed, hev, hpt⟩ :=
      authenticateFilter_pass env { st with command_list_index := none } request hauth
    rw [heq, commandListFilter_idle_closes env st1 request
      (by rw [hrecv]; exact hrec) (by rw [hsubs]; exact hidle) hreq]
    exact ⟨rfl, rfl⟩
  · intro env st hauth hrec hidle
    simp only [handleRequest]
    obtain ⟨st1, heq, hsubs, hrecv, hidx, hlist, hclosed, hev, hpt⟩ :=
      authenticateFilter_pass env { st with command_list_index := none } "noidle" hauth
    rw [heq, commandListFilter_noidle_not_idle env st1
      (by rw [hrecv]; exact hrec) (by rw [hsubs]; exact hidle)]

def idleDState : DState := ⟨⟨true, ["player"], [], true⟩, false, false, [], none, false⟩

theorem idle_gate_noidle_witness :
    ((handleRequest emptyEnv idleDState none "status").1 = [] ∧
     (handleRequest emptyEnv idleDState none "status").2.sessionClosed = true) ∧
    (handleRequest emptyEnv initialDState none "noidle").1 = [] := by
  constructor
  · exact idle_gate_noidle.1 emptyEnv idleDState "status" (Or.inl rfl) rfl
      (by decide) (by decide)
  · exact idle_gate_noidle.2 emptyEnv initialDState (Or.inr rfl) rfl rfl

theorem beqFalseOfNe (a b : String) (h : a ≠ b) : (a == b) = false := by
  cases hb : a == b
  · rfl
  · exact absurd (beq_iff_eq.mp hb) h

theorem callHandlerFilter_preserves (env : DispatchEnv) (st : DState) (request : String) :
    ((callHandlerFilter env st request).2).command_list_receiving
        = st.command_list_receiving ∧
    ((callHandlerFilter env st request).2).command_list_index = st.command_list_index := by
  unfold callHandlerFilter
  cases tokenizeSplit request with
  | error e => exact ⟨rfl, rfl⟩
  | ok tokens =>
    simp only []
    split
    · exact ⟨rfl, rfl⟩
    · cases commandsCall env.handlers tokens st.ctx with
      | mk exc ctx' =>
        cases exc with
        | error e => exact ⟨rfl, rfl⟩
        | ok result => exact ⟨rfl, rfl⟩

theorem addOkFilter_preserves (env : DispatchEnv) (st : DState) (request : String) :
    ((addOkFilter env st request).2).command_list_receiving = st.command_list_receiving ∧
    ((addOkFilter env st request).2).command_list_index = st.command_list_index := by
  unfold addOkFilter
  have h := callHandlerFilter_preserves env st request
  cases hch : callHandlerFilter env st request with
  | mk exc st' =>
    rw [hch] at h
    cases exc with
    | error e => exact h
    | ok response =>
      cases hb : hasError response
      · simpa [hb] using h
      · simpa [hb] using h

theorem idleFilter_preserves (env : DispatchEnv) (st : DState) (request : String) :
    ((idleFilter env st request).2).command_list_receiving = st.command_list_receiving ∧
    ((idleFilter env st request).2).command_list_index = st.command_list_index := by
  unfold idleFilter
  split
  · exact ⟨rfl, rfl⟩
  · split
    · exact ⟨rfl, rfl⟩
    · have h := addOkFilter_preserves env st request
      cases hch : addOkFilter env st request with
      | mk exc st' =>
        rw [hch] at h
        cases exc with
        | error e => exact h
        | ok response =>
          cases hb : isCurrentlyIdle st'
          · simpa [hb] using h
          · simpa [hb] using h

theorem addOkFilter_error (env : DispatchEnv) (st : DState) (request : String)
    (e : MpdError) (st' : DState)
    (hch : callHandlerFilter env st request = (.error e, st')) :
    addOkFilter env st request = (.error e, st') := by
  unfold addOkFilter
  rw [hch]

theorem idleFilter_error (env : DispatchEnv) (st : DState) (request : String)
    (e : MpdError) (st' : DState)
    (hidle : st.ctx.subscriptions = []) (hreq : request ≠ "noidle")
    (hch : addOkFilter env st request = (.error e, st')) :
    idleFilter env st request = (.error e, st') := by
  have h1 : isCurrentlyIdle st = false := by
    unfold isCurrentlyIdle
    rw [hidle]
    rfl
  have h2 : (request == "noidle") = false := beqFalseOfNe request "noidle" hreq
  unfold idleFilter
  rw [h1, h2]
  simp only [Bool.false_and, Bool.and_false, Bool.not_false, Bool.true_and]
  rw [if_neg Bool.false_ne_true, if_neg Bool.false_ne_true, hch]

theorem commandListFilter_error (env : DispatchEnv) (st : DState) (request : String)
    (e : MpdError) (st' : DState)
    (hrec : st.command_list_receiving = false)
    (hch : idleFilter env st request = (.error e, st')) :
    commandListFilter env st request = (.error e, st') := by
  have h1 : isReceivingCommandList st request = false := by
    unfold isReceivingCommandList
    rw [hrec]
    rfl
  unfold commandListFilter
  rw [h1, if_neg Bool.false_ne_true, hch]

theorem handlerCall_arity_error (h : Handler) (args : List String) (ctx : SessionCtx)
    (hvar : h.varargs = false)
    (harity : args.length < h.nRequired ∨ h.nRequired + h.nOptional < args.length) :
    handlerCall h args ctx
      = (.error (mpdArgError ("wrong number of arguments for \x22" ++ h.name ++ "\x22")),
         ctx) := by
  unfold handlerCall
  rw [hvar, if_neg Bool.false_ne_true]
  have hc : (decide (args.length < h.nRequired)
      || decide (h.nRequired + h.nOptional < args.length)) = true := by
    rcases harity with h1 | h1 <;> simp [h1]
  rw [hc, if_pos rfl]

theorem findHandler_name (hs : List Handler) (n : String) (h : Handler)
    (hfind : findHandler hs n = some h) : h.name = n := by
  have := List.find?_some hfind
  exact beq_iff_eq.mp this

theorem findHandler_mem (hs : List Handler) (n : String) (h : Handler)
    (hfind : findHandler hs n = some h) : h ∈ hs :=
  List.mem_of_find?_eq_some hfind

theorem callHandlerFilter_arity (env : DispatchEnv) (st : DState) (request : String)
    (name : String) (args : List String) (h : Handler)
    (htok : tokenizeSplit request = .ok (name :: args))
    (hbl : env.command_blacklist.contains name = false)
    (hfind : findHandler env.handlers name = some h)
    (hvar : h.varargs = false)
    (harity : args.length < h.nRequired ∨ h.nRequired + h.nOptional < args.length) :
    callHandlerFilter env st request
      = (.error ({ error_code := 2,
                   message := "wrong number of arguments for \x22" ++ h.name ++ "\x22",
                   index := 0, command := some name } : MpdError), st) := by
  have hblc : (!(name :: args).isEmpty
      && env.command_blacklist.contains ((name :: args).headD "")) = false := by
    have hc : env.command_blacklist.contains ((name :: args).headD "") = false := hbl
    rw [hc, Bool.and_false]
  have hcc : commandsCall env.handlers (name :: args) st.ctx
      = (.error (mpdArgError ("wrong number of arguments for \x22" ++ h.name ++ "\x22")),
         st.ctx) := by
    show (match findHandler env.handlers name with
          | none => (Except.error (mpdUnknownCommandError name), st.ctx)
          | some hh => handlerCall hh args st.ctx) = _
    rw [hfind]
    exact handlerCall_arity_error h args st.ctx hvar harity
  unfold callHandlerFilter
  rw [htok]
  show (if (!(name :: args).isEmpty
        && env.command_blacklist.contains ((name :: args).headD "")) = true
      then (Except.error (mpdDisabledError ((name :: args).headD "")), st)
      else match commandsCall env.handlers (name :: args) st.ctx with
        | (Except.error e, ctx') =>
          (Except.error (if e.command = none
              then { e with command := some ((name :: args).headD "") } else e),
           { st with ctx := ctx' })
        | (Except.ok result, ctx') =>
          (Except.ok (formatResponse result), { st with ctx := ctx' })) = _
  rw [hblc, if_neg Bool.false_ne_true, hcc]
  rfl

theorem getMpdAck_wrong_args (name : String) :
    getMpdAck ({ error_code := 2,
                 message := "wrong number of arguments for \x22" ++ name ++ "\x22",
                 index := 0, command := some name } : MpdError)
      = "ACK [2@0] \x7b" ++ name ++ "\x7d wrong number of arguments for \x22"
          ++ name ++ "\x22" := by
  show "ACK [" ++ natDecimal 2 ++ "@" ++ natDecimal 0 ++ "] \x7b" ++ name ++ "\x7d " ++
      ("wrong number of arguments for \x22" ++ name ++ "\x22") = _
  have h2 : natDecimal 2 = "2" := by decide
  have h0 : natDecimal 0 = "0" := by decide
  rw [h2, h0]
  have h1 : "ACK [" ++ "2" ++ "@" ++ "0" ++ "] \x7b" = "ACK [2@0] \x7b" := by decide
  have h3 : ∀ X : String,
      "\x7d " ++ ("wrong number of arguments for \x22" ++ X)
        = "\x7d wrong number of arguments for \x22" ++ X := by
    intro X
    rw [← String.append_assoc]
    have : "\x7d " ++ "wrong number of arguments for \x22"
        = "\x7d wrong number of arguments for \x22" := by decide
    rw [this]
  rw [h1]
  simp [String.append_assoc, h3]

theorem wrong_args_core (env : DispatchEnv) (st : DState) (request : String)
    (name : String) (args : List String) (h : Handler)
    (hauth : st.ctx.authenticated = true ∨ env.password = none)
    (hrec : st.command_list_receiving = false)
    (hidle : st.ctx.subscriptions = [])
    (hreq : request ≠ "noidle")
    (htok : tokenizeSplit request = .ok (name :: args))
    (hbl : env.command_blacklist.contains name = false)
    (hfind : findHandler env.handlers name = some h)
    (hvar : h.varargs = false)
    (harity : args.length < h.nRequired ∨ h.nRequired + h.nOptional < args.length) :
    (handleRequest env st none request).1
      = ["ACK [2@0] \x7b" ++ name ++ "\x7d wrong number of arguments for \x22"
          ++ name ++ "\x22"] := by
  have hname : h.name = name := findHandler_name env.handlers name h hfind
  simp only [handleRequest]
  obtain ⟨st1, heq, hsubs, hrecv, hidx, hlist, hclosed, hev, hpt⟩ :=
    authenticateFilter_pass env { st with command_list_index := none } request hauth
  rw [heq]
  have hch := callHandlerFilter_arity env st1 request name args h htok hbl hfind hvar harity
  rw [hname] at hch
  have haddok := addOkFilter_error env st1 request _ _ hch
  have hidle1 : st1.ctx.subscriptions = [] := by rw [hsubs]; exact hidle
  have hidleE := idleFilter_error env st1 request _ _ hidle1 hreq haddok
  have hrec1 : st1.command_list_receiving = false := by rw [hrecv]; exact hrec
  have hcmdE := commandListFilter_error env st1 request _ _ hrec1 hidleE
  rw [hcmdE]
  have hidx1 : st1.command_list_index = none := hidx
  simp only [hidx1]
  rw [getMpdAck_wrong_args name]

/-- C1: dispatching a request for a registered non-varargs handler with
`k = nRequired` required and `m = nOptional` optional positional parameters
and an argument token count below `k` or above `k + m` produces the single
error line `ACK [2@0] {name} wrong number of arguments for "name"` without
invoking the handler body: the response is the same whatever function `f`
is installed as the handler's body. -/
theorem wrong_number_of_arguments (env : DispatchEnv) (st : DState) (request : String)
    (name : String) (args : List String) (h : Handler)
    (hauth : st.ctx.authenticated = true ∨ env.password = none)
    (hrec : st.command_list_receiving = false)
    (hidle : st.ctx.subscriptions = [])
    (hreq : request ≠ "noidle")
    (htok : tokenizeSplit request = .ok (name :: args))
    (hbl : env.command_blacklist.contains name = false)
    (hfind : findHandler env.handlers name = some h)
    (hvar : h.varargs = false)
    (harity : args.length < h.nRequired ∨ h.nRequired + h.nOptional < args.length) :
    (handleRequest env st none request).1
      = ["ACK [2@0] \x7b" ++ name ++ "\x7d wrong number of arguments for \x22"
          ++ name ++ "\x22"] ∧
    ∀ (env2 : DispatchEnv) (h2 : Handler),
      env2.password = env.password →
      env2.command_blacklist = env.command_blacklist →
      findHandler env2.handlers name = some h2 →
      h2.varargs = false →
      h2.nRequired = h.nRequired →
      h2.nOptional = h.nOptional →
      (handleRequest env2 st none request).1
        = ["ACK [2@0] \x7b" ++ name ++ "\x7d wrong number of arguments for \x22"
            ++ name ++ "\x22"] := by
  constructor
  · exact wrong_args_core env st request name args h
      hauth hrec hidle hreq htok hbl hfind hvar harity
  · intro env2 h2 hpw hblk hfind2 hvar2 hreq2 hopt2
    refine wrong_args_core env2 st request name args h2 ?_ hrec hidle hreq htok ?_
      hfind2 hvar2 ?_
    · rcases hauth with ha | hp
      · exact Or.inl ha
      · exact Or.inr (by rw [hpw, hp])
    · rw [hblk]
      exact hbl
    · rw [hreq2, hopt2]
      exact harity

def pingHandler : Handler :=
  { name := "ping", auth_required := true, list_command := true, varargs := false,
    nRequired := 0, nOptional := 0, validate := fun _ => true,
    func := fun _ ctx => (.ok none, ctx) }

def pingEnv : DispatchEnv := ⟨none, [], [pingHandler]⟩

def pingHandler2 : Handler :=
  { pingHandler with func := fun _ ctx => (.ok (some (.str "pong")), ctx) }

def pingEnv2 : DispatchEnv := ⟨none, [], [pingHandler2]⟩

theorem wrong_number_of_arguments_witness :
    (handleRequest pingEnv initialDState none "ping extra").1
      = ["ACK [2@0] \x7bping\x7d wrong number of arguments for \x22ping\x22"] ∧
    (handleRequest pingEnv2 initialDState none "ping extra").1
      = ["ACK [2@0] \x7bping\x7d wrong number of arguments for \x22ping\x22"] := by
  have h := wrong_number_of_arguments pingEnv initialDState "ping extra" "ping" ["extra"]
    pingHandler (Or.inr rfl) rfl rfl (by decide) rfl rfl rfl rfl
    (Or.inr (by decide))
  constructor
  · exact h.1.trans (by decide)
  · exact (h.2 pingEnv2 pingHandler2 rfl rfl rfl rfl rfl rfl).trans (by decide)

theorem commandListFilter_preserves (env : DispatchEnv) (st : DState) (request : String) :
    ((commandListFilter env st request).2).command_list_index = st.command_list_index ∧
    ((commandListFilter env st request).2).command_list_receiving
      = st.command_list_receiving := by
  unfold commandListFilter
  split
  · exact ⟨rfl, rfl⟩
  · cases hi : idleFilter env st request with
    | mk exc st' =>
      have h := idleFilter_preserves env st request
      rw [hi] at h
      cases exc with
      | error e => exact ⟨h.2, h.1⟩
      | ok response =>
        refine ⟨?_, ?_⟩
        · show ((if ((isReceivingCommandList st' request
                || isProcessingCommandList st' request)
              && !response.isEmpty && response.getLastD "" == "OK") = true
            then ((Except.ok response.dropLast : Except MpdError (List String)), st')
            else (Except.ok response, st')).2).command_list_index
            = st.command_list_index
          split
          · exact h.2
          · exact h.2
        · show ((if ((isReceivingCommandList st' request
                || isProcessingCommandList st' request)
              && !response.isEmpty && response.getLastD "" == "OK") = true
            then ((Except.ok response.dropLast : Except MpdError (List String)), st')
            else (Except.ok response, st')).2).command_list_receiving
            = st.command_list_receiving
          split
          · exact h.1
          · exact h.1

theorem authenticateFilter_preserves (env : DispatchEnv) (st : DState) (request : String) :
    ((authenticateFilter env st request).2).command_list_index
      = st.command_list_index := by
  simp only [authenticateFilter]
  split
  · exact (commandListFilter_preserves env st request).1
  · split
    · exact (commandListFilter_preserves env _ request).1
    · split
      · split
        · exact (commandListFilter_preserves env st request).1
        · rfl
      · rfl

/-- MPD errors raised below the catch filter reach `handle_request`, which
re-stamps the index from the current command-list index and emits the
single ACK line. -/
theorem handleRequest_error (env : DispatchEnv) (st : DState) (idx : Option Nat)
    (request : String) (e : MpdError) (st' : DState)
    (he : e.index = 0)
    (hch : authenticateFilter env { st with command_list_index := idx } request
      = (.error e, st')) :
    handleRequest env st idx request
      = ([getMpdAck { e with index := idx.getD 0 }], st') := by
  simp only [handleRequest]
  rw [hch]
  have hidx : st'.command_list_index = idx := by
    have h := authenticateFilter_preserves env { st with command_list_index := idx } request
    rw [hch] at h
    exact h
  show ([getMpdAck (match st'.command_list_index with
      | some i => { error_code := e.error_code, message := e.message,
                    index := i, command := e.command }
      | none => e)], st') = _
  rw [hidx]
  cases idx with
  | some i => rfl
  | none =>
    obtain ⟨c, m, i, cmd⟩ := e
    cases he
    rfl

theorem commandsCall_ok_inv (hs : List Handler) (tokens : List String) (ctx : SessionCtx)
    (r : Option RNode) (ctx' : SessionCtx)
    (h : commandsCall hs tokens ctx = (.ok r, ctx')) :
    ∃ hh ∈ hs, ∃ args0 ctx0, hh.func args0 ctx0 = (.ok r, ctx') := by
  cases tokens with
  | nil => unfold commandsCall at h; simp at h
  | cons command rest =>
    have h2 : (match findHandler hs command with
        | none => ((Except.error (mpdUnknownCommandError command) :
            Except MpdError (Option RNode)), ctx)
        | some hh => handlerCall hh rest ctx) = (Except.ok r, ctx') := h
    cases hf : findHandler hs command with
    | none =>
      rw [hf] at h2
      simp at h2
    | some hh =>
      rw [hf] at h2
      have h3 : handlerCall hh rest ctx = (Except.ok r, ctx') := h2
      unfold handlerCall at h3
      split at h3
      · exact ⟨hh, findHandler_mem hs command hh hf, rest, ctx, h3⟩
      · split at h3
        · simp at h3
        · split at h3
          · simp at h3
          · exact ⟨hh, findHandler_mem hs command hh hf, rest, ctx, h3⟩

theorem callHandlerFilter_ok_no_ack (env : DispatchEnv) (st : DState) (request : String)
    (resp : List String) (st' : DState)
    (HT : ∀ hh ∈ env.handlers, ∀ tokens ctx r ctx',
      hh.func tokens ctx = (.ok r, ctx') → ∀ line ∈ formatResponse r,
        ackPrefixed line = false)
    (hch : callHandlerFilter env st request = (.ok resp, st')) :
    ∀ line ∈ resp, ackPrefixed line = false := by
  unfold callHandlerFilter at hch
  split at hch
  · simp at hch
  · rename_i tokens htok
    split at hch
    · simp at hch
    · split at hch
      · simp at hch
      · rename_i result ctx2 heq
        simp only [Prod.mk.injEq, Except.ok.injEq] at hch
        obtain ⟨hresp, hst⟩ := hch
        obtain ⟨hh, hmem, args0, ctx0, hfunc⟩ :=
          commandsCall_ok_inv env.handlers tokens st.ctx result ctx2 heq
        rw [← hresp]
        exact HT hh hmem args0 ctx0 result ctx2 hfunc

theorem addOkFilter_ok (env : DispatchEnv) (st : DState) (request : String)
    (resp : List String) (st' : DState)
    (HT : ∀ hh ∈ env.handlers, ∀ tokens ctx r ctx',
      hh.func tokens ctx = (.ok r, ctx') → ∀ line ∈ formatResponse r,
        ackPrefixed line = false)
    (hch : callHandlerFilter env st request = (.ok resp, st')) :
    addOkFilter env st request = (.ok (resp ++ ["OK"]), st') := by
  have hne : hasError resp = false := by
    unfold hasError
    cases hr : resp with
    | nil => rfl
    | cons a l =>
      have hmem : (a :: l).getLast?.getD "" ∈ (a :: l) := by
        rw [List.getLast?_eq_getLast_of_ne_nil (List.cons_ne_nil a l)]
        exact List.getLast_mem (List.cons_ne_nil a l)
      have hlast := callHandlerFilter_ok_no_ack env st request resp st' HT hch
        ((a :: l).getLast?.getD "") (by rw [hr]; exact hmem)
      rw [List.getLastD_eq_getLast?]
      simp [hlast]
  unfold addOkFilter
  rw [hch]
  show (if hasError resp = true then ((Except.ok resp :
      Except MpdError (List String)), st')
    else (Except.ok (resp ++ ["OK"]), st')) = _
  rw [hne, if_neg Bool.false_ne_true]

theorem hasError_false_of_no_ack (resp : List String)
    (hlines : ∀ line ∈ resp, ackPrefixed line = false) : hasError resp = false := by
  unfold hasError
  cases resp with
  | nil => rfl
  | cons a l =>
    have hmem : (a :: l).getLast?.getD "" ∈ (a :: l) := by
      rw [List.getLast?_eq_getLast_of_ne_nil (List.cons_ne_nil a l)]
      exact List.getLast_mem (List.cons_ne_nil a l)
    have hlast := hlines ((a :: l).getLast?.getD "") hmem
    rw [List.getLastD_eq_getLast?]
    simp [hlast]

theorem idleFilter_ok_inv (env : DispatchEnv) (st : DState) (request : String)
    (resp : List String) (st' : DState)
    (h : idleFilter env st request = (.ok resp, st')) (hne : resp ≠ []) :
    addOkFilter env st request = (.ok resp, st') := by
  unfold idleFilter at h
  split at h
  · simp only [Prod.mk.injEq, Except.ok.injEq] at h
    exact absurd h.1.symm hne
  · split at h
    · simp only [Prod.mk.injEq, Except.ok.injEq] at h
      exact absurd h.1.symm hne
    · split at h
      · simp at h
      · rename_i respA stA heq
        split at h
        · simp only [Prod.mk.injEq, Except.ok.injEq] at h
          exact absurd h.1.symm hne
        · simp only [Prod.mk.injEq, Except.ok.injEq] at h
          rw [heq, h.1, h.2]

theorem commandListFilter_ok_inv (env : DispatchEnv) (st : DState) (request : String)
    (resp : List String) (st' : DState)
    (hidx : st.command_list_index = none)
    (h : commandListFilter env st request = (.ok resp, st')) (hne : resp ≠ []) :
    idleFilter env st request = (.ok resp, st') := by
  unfold commandListFilter at h
  split at h
  · simp only [Prod.mk.injEq, Except.ok.injEq] at h
    exact absurd h.1.symm hne
  · rename_i hnotrecv
    split at h
    · simp at h
    · rename_i respI stI heq
      have hpres := idleFilter_preserves env st request
      rw [heq] at hpres
      have hproc : isProcessingCommandList stI request = false := by
        unfold isProcessingCommandList
        rw [hpres.2, hidx]
        rfl
      have hrecvI : isReceivingCommandList stI request
          = isReceivingCommandList st request := by
        unfold isReceivingCommandList
        rw [hpres.1]
      have hnotrecv' : isReceivingCommandList st request = false := by
        cases hb : isReceivingCommandList st request
        · rfl
        · exact absurd hb hnotrecv
      rw [hrecvI, hnotrecv', hproc] at h
      simp only [Bool.false_or, Bool.false_and, if_neg Bool.false_ne_true] at h
      simp only [Prod.mk.injEq, Except.ok.injEq] at h
      rw [heq, h.1, h.2]

theorem authenticateFilter_ok_inv (env : DispatchEnv) (st : DState) (request : String)
    (resp : List String) (st' : DState)
    (h : authenticateFilter env st request = (.ok resp, st')) :
    ∃ st1 : DState, commandListFilter env st1 request = (.ok resp, st') ∧
      st1.command_list_receiving = st.command_list_receiving ∧
      st1.command_list_index = st.command_list_index := by
  simp only [authenticateFilter] at h
  split at h
  · exact ⟨st, h, rfl, rfl⟩
  · split at h
    · exact ⟨_, h, rfl, rfl⟩
    · split at h
      · split at h
        · exact ⟨st, h, rfl, rfl⟩
        · simp at h
      · simp at h

/-- C2: a request whose dispatch raises no MPD error and yields a non-empty
response ends with the line `OK` (given that handler bodies never emit a
line starting with `ACK` — true of every registered handler, whose results
are formatted `key: value` lines); and a request that raises an MPD error
produces exactly the single line `ACK [code@i] {cmd} message`, with `i`
taken from the current command-list index (the sub-command position during
replay) and 0 otherwise, and no other lines. -/
theorem ok_and_ack_framing :
    (∀ (env : DispatchEnv) (st : DState) (request : String)
        (resp : List String) (st' : DState),
      (∀ hh ∈ env.handlers, ∀ (tokens : List String) (ctx : SessionCtx)
          (r : Option RNode) (ctx' : SessionCtx),
        hh.func tokens ctx = (.ok r, ctx') → ∀ line ∈ formatResponse r,
          ackPrefixed line = false) →
      authenticateFilter env { st with command_list_index := none } request
        = (.ok resp, st') →
      resp ≠ [] →
      (handleRequest env st none request).1 = resp ∧ resp.getLast? = some "OK") ∧
    (∀ (env : DispatchEnv) (st : DState) (idx : Option Nat) (request : String)
        (e : MpdError) (st' : DState),
      e.index = 0 →
      authenticateFilter env { st with command_list_index := idx } request
        = (.error e, st') →
      handleRequest env st idx request
        = ([getMpdAck { e with index := idx.getD 0 }], st')) := by
  constructor
  · intro env st request resp st' HT hch hne
    have h1 : (handleRequest env st none request).1 = resp := by
      simp only [handleRequest]
      rw [hch]
    refine ⟨h1, ?_⟩
    obtain ⟨st1, hcl, hrecv1, hidx1⟩ :=
      authenticateFilter_ok_inv env _ request resp st' hch
    have hidx1' : st1.command_list_index = none := hidx1
    have hidle := commandListFilter_ok_inv env st1 request resp st' hidx1' hcl hne
    have haddok := idleFilter_ok_inv env st1 request resp st' hidle hne
    unfold addOkFilter at haddok
    split at haddok
    · simp at haddok
    · rename_i resp0 st0 heq0
      have hno : hasError resp0 = false :=
        hasError_false_of_no_ack resp0
          (callHandlerFilter_ok_no_ack env st1 request resp0 st0 HT heq0)
      rw [hno, if_neg Bool.false_ne_true] at haddok
      simp only [Prod.mk.injEq, Except.ok.injEq] at haddok
      rw [← haddok.1]
      exact List.getLast?_concat resp0
  · intro env st idx request e st' he hch
    exact handleRequest_error env st idx request e st' he hch

def stAuthA : DState := ⟨⟨true, [], [], false⟩, false, false, [], none, false⟩

def stAuthB : DState := ⟨⟨true, [], [], false⟩, false, false, [], some 1, false⟩

theorem ok_and_ack_framing_witness :
    ((handleRequest pingEnv initialDState none "ping").1 = ["OK"] ∧
     (["OK"] : List String).getLast? = some "OK") ∧
    (handleRequest pingEnv initialDState (some 1) "foobar").1
      = ["ACK [5@1] \x7b\x7d unknown command \x22foobar\x22"] := by
  constructor
  · refine ok_and_ack_framing.1 pingEnv initialDState "ping" ["OK"] stAuthA ?_ ?_ ?_
    · intro hh hmem tokens ctx r ctx' hfunc line hline
      have hh' : hh = pingHandler := List.mem_singleton.mp hmem
      subst hh'
      have hfunc' : ((Except.ok none : Except MpdError (Option RNode)), ctx)
          = (.ok r, ctx') := hfunc
      simp only [Prod.mk.injEq, Except.ok.injEq] at hfunc'
      rw [← hfunc'.1] at hline
      simp [formatResponse, listifyResult] at hline
    · rfl
    · decide
  · have h := ok_and_ack_framing.2 pingEnv initialDState (some 1) "foobar"
      (mpdUnknownCommandError "foobar") stAuthB rfl rfl
    have h1 := congrArg Prod.fst h
    simp only [] at h1
    exact h1.trans (by decide)

/-! ### Filter expressions — src/mopidy_mpd/protocol/filter_expressions.py

The parser reads a character stream (modelled as a `List Char` consumed
left to right, matching the `peekable` iterator).  Python-level failures
are distinguished from MPD errors: `MpdArgError` raises become `.mpd`,
a bare `next()` on an exhausted iterator becomes `.stopIteration`
(converted to `MpdArgError "incomplete filter expression"` at top level),
and an uncaught ValueError/TypeError/KeyError/RuntimeError becomes
`.crash`. -/

inductive PErr where
  | mpd (e : MpdError)
  | stopIteration
  | crash
deriving DecidableEq

/-- A parse result element: `parse_subexpression` is meant to produce
`(tag, operator, value)` tuples, but the AND branch can also return a
nested Python list, so the element type has both shapes. -/
inductive FExpr where
  | triple (tag op value : String)
  | nested (items : List FExpr)

/-- Python `str.isspace` restricted to code points below 256
(the inputs in all theorems are ASCII). -/
def pyIsSpace (c : Char) : Bool :=
  c.toNat == 32 || (9 ≤ c.toNat && c.toNat ≤ 13) ||
    (28 ≤ c.toNat && c.toNat ≤ 31) || c.toNat == 133 || c.toNat == 160

def is_tagname (c : Char) : Bool :=
  (65 ≤ c.toNat && c.toNat ≤ 90) || (97 ≤ c.toNat && c.toNat ≤ 122) ||
    c == '-' || c == '_'

def is_operator (c : Char) : Bool :=
  (65 ≤ c.toNat && c.toNat ≤ 90) || (97 ≤ c.toNat && c.toNat ≤ 122) ||
    c == '!' || c == '=' || c == '~'

/-- `takeWord`: take while in the alphabet, then skip whitespace. -/
def takeWord (alphabet : Char → Bool) (s : List Char) : String × List Char :=
  (String.mk (s.takeWhile alphabet), (s.dropWhile alphabet).dropWhile pyIsSpace)

/-- `takeChar`: `next(it)` then skip whitespace. -/
def takeChar : List Char → Except PErr (Char × List Char)
  | [] => .error .stopIteration
  | c :: r => .ok (c, r.dropWhile pyIsSpace)

def squoteChar : Char := Char.ofNat 39

/-- `str.lower`/`str.upper` on the ASCII-only words `takeWord` yields. -/
def asciiLowerChar (c : Char) : Char :=
  if 65 ≤ c.toNat && c.toNat ≤ 90 then Char.ofNat (c.toNat + 32) else c

def asciiUpperChar (c : Char) : Char :=
  if 97 ≤ c.toNat && c.toNat ≤ 122 then Char.ofNat (c.toNat - 32) else c

def operators_inverted : List (String × String) :=
  [("==", "!="), ("!=", "=="), ("=~", "!~"), ("!~", "=~"),
   ("contains", "!contains"), ("!contains", "contains")]

/-- The quoted-body generator in `takeQuoted`: stop before the quote or at
end of input; a backslash takes the next character literally (a trailing
backslash makes the generator raise, which PEP 479 turns into a
RuntimeError, i.e. a crash). -/
def takeQuotedGo (quote : Char) : Nat → List Char → Except PErr (List Char × List Char)
  | 0, _ => .error .stopIteration
  | _ + 1, [] => .ok ([], [])
  | fuel + 1, c :: r =>
    if c == quote then .ok ([], c :: r)
    else if c == '\\' then
      match r with
      | [] => .error .crash
      | c2 :: r2 =>
        match takeQuotedGo quote fuel r2 with
        | .error e => .error e
        | .ok (v, rest) => .ok (c2 :: v, rest)
    else
      match takeQuotedGo quote fuel r with
      | .error e => .error e
      | .ok (v, rest) => .ok (c :: v, rest)

def takeQuoted (s : List Char) : Except PErr (String × List Char) :=
  match s with
  | [] => .error .stopIteration
  | quote :: r =>
    if quote == squoteChar || quote == dquoteChar then
      match takeQuotedGo quote (r.length + 1) r with
      | .error e => .error e
      | .ok (v, rest) =>
        match rest with
        | [] => .error .stopIteration
        | c :: rest2 =>
          if c == quote then .ok (String.mk v, rest2.dropWhile pyIsSpace)
          else .error (.mpd (mpdArgError "Closing quote not found"))
    else .error (.mpd (mpdArgError "Quoted string expected"))

/-- `parenthesis.__exit__` on the no-exception path: consume `)`. -/
def expectRParen (s : List Char) : Except PErr (List Char) :=
  match takeChar s with
  | .error e => .error e
  | .ok (c, r) =>
    if c == ')' then .ok r else .error (.mpd (mpdArgError "\x27)\x27 expected"))

/-- The two mutually recursive procedures of the parser:
`sub s` is `parse_subexpression(it)`, `conj acc s` is the
`while it.peek() != ')'` AND-loop with `subexpressions = acc`. -/
inductive PCall where
  | sub (s : List Char)
  | conj (acc : List FExpr) (s : List Char)

def parseGo : Nat → PCall → Except PErr (List FExpr × List Char)
  | 0, _ => .error .stopIteration
  | fuel + 1, PCall.sub s =>
    match takeChar s with
    | .error e => .error e
    | .ok (c0, s1) =>
      if c0 == '(' then
        match s1 with
        | [] => .error .stopIteration
        | c1 :: _ =>
          if c1 == '!' then
            match takeChar s1 with
            | .error e => .error e
            | .ok (_, s2) =>
              match parseGo fuel (PCall.sub s2) with
              | .error e => .error e
              | .ok (sub, s3) =>
                if sub.length == 1 then
                  match sub with
                  | [FExpr.triple t op v] =>
                    match assocLookup operators_inverted op with
                    | some op2 =>
                      match expectRParen s3 with
                      | .error e => .error e
                      | .ok s4 => .ok ([FExpr.triple t op2 v], s4)
                    | none => .error .crash
                  | _ => .error .crash
                else .error (.mpd (mpdArgError "inverting (AND) not supported"))
          else if c1 == '(' then
            match parseGo fuel (PCall.sub s1) with
            | .error e => .error e
            | .ok (first, s2) =>
              match parseGo fuel (PCall.conj [FExpr.nested first] s2) with
              | .error e => .error e
              | .ok (subs, s3) =>
                match expectRParen s3 with
                | .error e => .error e
                | .ok s4 => .ok (subs, s4)
          else
            let (ft, s2) := takeWord is_tagname s1
            if ft == "" then .error (.mpd (mpdArgError "Word expected"))
            else if ft == "base" || ft == "modified-since" then
              match takeQuoted s2 with
              | .error e => .error e
              | .ok (v, s3) =>
                match expectRParen s3 with
                | .error e => .error e
                | .ok s4 => .ok ([FExpr.triple ft "==" v], s4)
            else
              let (opRaw, s3) := takeWord is_operator s2
              let op := String.mk (opRaw.data.map asciiLowerChar)
              if (assocLookup operators_inverted op).isSome then
                match takeQuoted s3 with
                | .error e => .error e
                | .ok (v, s4) =>
                  match expectRParen s4 with
                  | .error e => .error e
                  | .ok s5 => .ok ([FExpr.triple ft op v], s5)
              else .error (.mpd (mpdArgError "invalid operator"))
      else .error (.mpd (mpdArgError "\x27(\x27 expected"))
  | fuel + 1, PCall.conj acc s =>
    match s with
    | [] => .error .stopIteration
    | c :: _ =>
      if c == ')' then .ok (acc, s)
      else
        let (w, s2) := takeWord is_tagname s
        if String.mk (w.data.map asciiUpperChar) == "AND" then
          match parseGo fuel (PCall.sub s2) with
          | .error e => .error e
          | .ok (sub, s3) => parseGo fuel (PCall.conj (acc ++ sub) s3)
        else .error (.mpd (mpdArgError "\x27AND\x27 expected"))

def parse_subexpression (fuel : Nat) (s : List Char) :
    Except PErr (List FExpr × List Char) :=
  parseGo fuel (PCall.sub s)

def parse_filter_expression (expression : String) : Except PErr (List FExpr) :=
  let s := expression.data
  match parse_subexpression (2 * s.length + 2) s with
  | .error PErr.stopIteration =>
    .error (.mpd (mpdArgError "incomplete filter expression"))
  | .error e => .error e
  | .ok (res, rest) =>
    if rest.isEmpty then .ok res
    else .error (.mpd (mpdArgError "Unparsed garbage after expression"))

/-- C9: two of the claim's clauses hold — negating an AND conjunction of two
clauses raises MpdArgError "inverting (AND) not supported", input remaining
after the top-level parenthesised expression raises MpdArgError "Unparsed
garbage after expression", and negating a single comparison succeeds with
the operator inverted — but the triples clause fails on the code as
written: `subexpressions = [parse_subexpression(it)]` wraps the first
conjunct of an AND expression in a nested list, so a successful parse of
`((artist == 'x') AND (album == 'y'))` is not a flat list of
(tag, operator, value) triples, and `(!((artist == 'x')))` crashes
(ValueError while unpacking the nested list) instead of parsing. -/
theorem filter_expression_parse_shape :
    parse_filter_expression "(!((artist == \x27x\x27) AND (album == \x27y\x27)))"
      = .error (.mpd (mpdArgError "inverting (AND) not supported")) ∧
    parse_filter_expression "(base \x27dir\x27) trailing"
      = .error (.mpd (mpdArgError "Unparsed garbage after expression")) ∧
    parse_filter_expression "(!(artist == \x27x\x27))"
      = .ok [FExpr.triple "artist" "!=" "x"] ∧
    parse_filter_expression "((artist == \x27x\x27) AND (album == \x27y\x27))"
      = .ok [FExpr.nested [FExpr.triple "artist" "==" "x"],
          FExpr.triple "album" "==" "y"] ∧
    parse_filter_expression "(!((artist == \x27x\x27)))" = .error PErr.crash :=
  ⟨rfl, rfl, rfl, rfl, rfl⟩
